import Mathlib

/-!
Verification development for the fullstack-demo server (Express + Drizzle/SQLite).

The definitions below are a shallow embedding of the server-side code:

* `src/server/utils/response.ts` — the JSON response envelope helpers;
* `src/server/middleware/validate.ts` — the generic Zod validation middleware;
* `src/server/middleware/error.ts` — the global error handler;
* `src/shared/validators.ts` — the Zod schemas (contact create/update,
  id params, task status);
* `src/shared/db-schema.ts` — the four tables, their constraints and
  cascade rules, embedded as an in-memory `Store` with SQLite semantics;
* `src/server/services/{contact,project,task}.service.ts` and the
  `src/server/routes/v1/*.route.ts` route handlers.

JavaScript strings, numbers and dates are modelled as `String`, `Int`
(timestamps are epoch milliseconds) and JSON documents as the inductive
`JVal`.  Request handling is pure state passing: a route takes the request
pieces and the current `Store` and returns the `HttpResponse` (status plus
JSON body) and the possibly updated `Store`.
-/

namespace FullstackDemo

/-! ## JavaScript string primitives -/

/-- Model of the ASCII core of JavaScript whitespace, as consumed by
`String.prototype.trim` (space, tab, line feed, carriage return, vertical
tab, form feed). -/
def jsSpaceB (c : Char) : Bool :=
  decide (c.toNat = 32 ∨ c.toNat = 9 ∨ c.toNat = 10 ∨ c.toNat = 13 ∨ c.toNat = 11 ∨ c.toNat = 12)

/-- Model of JavaScript lower-casing of one character, for the ASCII range:
the code points of A–Z are shifted by 32, everything else is unchanged. -/
def jsCharLower (c : Char) : Char :=
  if h : 65 ≤ c.toNat ∧ c.toNat ≤ 90 then
    Char.ofNatAux (c.toNat + 32) (Or.inl (by omega))
  else c

/-- Model of `String.prototype.toLowerCase` (ASCII range). -/
def jsToLower (s : String) : String :=
  ⟨s.data.map jsCharLower⟩

/-- Model of `String.prototype.trim`: drop whitespace from both ends. -/
def jsTrim (s : String) : String :=
  ⟨List.rdropWhile jsSpaceB (s.data.dropWhile jsSpaceB)⟩

/-- Decimal digit test. -/
def isDigitB (c : Char) : Bool :=
  decide (48 ≤ c.toNat ∧ c.toNat ≤ 57)

/-- Value of a nonempty all-digit run, `none` otherwise. -/
def parseDigits (l : List Char) : Option Nat :=
  if l ≠ [] ∧ l.all isDigitB then
    some (l.foldl (fun n c => n * 10 + (c.toNat - 48)) 0)
  else none

/-- Integer fragment of the JavaScript `Number(string)` coercion, as used by
`z.coerce.number()` and by the route-level `Number(...)` casts: an
all-whitespace string yields `0`, an optional sign followed by decimal digits
yields that integer, and anything else yields `none`, which stands for `NaN`.
(Fractional, hexadecimal and exponent inputs are outside the fragment this
development exercises; they never produce the integers the schemas accept.) -/
def jsNumber (s : String) : Option Int :=
  let t := (jsTrim s).data
  if t = [] then some 0
  else
    match t with
    | '-' :: ds => (parseDigits ds).map (fun n => -(n : Int))
    | '+' :: ds => (parseDigits ds).map (fun n => (n : Int))
    | ds => (parseDigits ds).map (fun n => (n : Int))

/-- JavaScript truthiness of a string (`''` is falsy). -/
def strTruthy (s : String) : Bool := s ≠ ""

/-- JavaScript truthiness of a number; `none` is `NaN`, which is falsy, and
`0` is falsy. -/
def jsNumTruthy : Option Int → Bool
  | none => false
  | some n => n ≠ 0

/-! ## JSON documents and the response envelope -/

/-- JSON values, as produced by `res.json`. -/
inductive JVal where
  | null
  | bool (b : Bool)
  | num (n : Int)
  | str (s : String)
  | arr (elems : List JVal)
  | obj (fields : List (String × JVal))

/-- A JSON object, as an ordered field list (serialization order of `res.json`;
a field whose value is `undefined` is simply not in the list). -/
abbrev JObj := List (String × JVal)

/-- First value bound to key `k`, if any. -/
def lookupKey (k : String) (o : JObj) : Option JVal :=
  (o.find? (fun kv => kv.1 == k)).map (fun kv => kv.2)

def hasKey (k : String) (o : JObj) : Bool :=
  (lookupKey k o).isSome

def objKeys (o : JObj) : List String :=
  o.map (fun kv => kv.1)

/-- Embedding of `createResponse` from `src/server/utils/response.ts`: the
standardized envelope object.  The `timestamp` argument stands for the
`new Date().toISOString()` call. -/
def createResponse (success : Bool) (data : JVal) (message : String) (timestamp : String) : JObj :=
  [("success", JVal.bool success),
   ("data", data),
   ("message", JVal.str message),
   ("timestamp", JVal.str timestamp)]

/-- Embedding of `successResponse` (`message` defaults to `'Success'`). -/
def successResponse (data : JVal) (message : String := "Success") (ts : String := "") : JObj :=
  createResponse true data message ts

/-- Embedding of `errorResponse` (`data` defaults to `null`; no route passes
an explicit `data`). -/
def errorResponse (message : String) (ts : String := "") (data : JVal := JVal.null) : JObj :=
  createResponse false data message ts

/-- An HTTP response: numeric status and JSON body. -/
structure HttpResponse where
  status : Nat
  body : JObj

/-! ## The global error handler (src/server/middleware/error.ts) -/

/-- The minimal error shape the handler reads (`HttpError`): a message, an
optional stack trace and an optional manually attached `statusCode`. -/
structure HttpError where
  message : String
  stack : Option String
  statusCode : Option Nat

/-- Embedding of `globalErrorHandler`.  `env` stands for
`process.env.NODE_ENV` and `ts` for `new Date().toISOString()`.
JavaScript semantics captured here: `err.statusCode || 500` falls back to 500
when `statusCode` is absent or `0`; `err.message || 'Unknown Error'` falls
back when the message is empty; `stack` is serialized only when it is not
`undefined`, i.e. only in development and only when the error has a stack. -/
def globalErrorHandler (env : String) (err : HttpError) (ts : String) : HttpResponse :=
  let statusCode : Nat :=
    match err.statusCode with
    | some n => if n ≠ 0 then n else 500
    | none => 500
  let message : String :=
    if env = "production" ∧ statusCode = 500 then "Une erreur interne est survenue"
    else if err.message ≠ "" then err.message else "Unknown Error"
  ⟨statusCode,
    [("success", JVal.bool false), ("message", JVal.str message)]
    ++ (if env = "development" then
          (match err.stack with
           | some st => [("stack", JVal.str st)]
           | none => [])
        else [])
    ++ [("timestamp", JVal.str ts)]⟩

/-! ## The validation middleware (src/server/middleware/validate.ts) -/

/-- One Zod issue: a path into the document and a message. -/
structure ZodIssue where
  path : List String
  message : String
deriving Repr, DecidableEq

/-- Outcome of `schema.parseAsync`: a validated (and transformed) value, a
`ZodError` with its issue list, or some other thrown error. -/
inductive ParseOutcome (α : Type) where
  | ok (value : α)
  | zodError (issues : List ZodIssue)
  | thrown (err : HttpError)

/-- What a middleware does with the request: pass control to the next handler
with the designated request part replaced by the validated value, answer
immediately, or forward an error to the global error handler. -/
inductive MwResult (α : Type) where
  | next (validated : α)
  | respond (response : HttpResponse)
  | nextError (err : HttpError)

/-- The flat `{ field, message }` rendering of one Zod issue. -/
def formatIssue (issue : ZodIssue) : JVal :=
  JVal.obj [("field", JVal.str (String.intercalate "." issue.path)),
            ("message", JVal.str issue.message)]

/-- The body of the 400 answer built inline by the `validate` middleware.
Note that, unlike `createResponse`, it has no `data` and no `timestamp`
field. -/
def validationErrorBody (issues : List ZodIssue) : JObj :=
  [("success", JVal.bool false),
   ("message", JVal.str "Données invalides"),
   ("errors", JVal.arr (issues.map formatIssue))]

/-- Embedding of the `validate` middleware factory applied to one request:
parse the designated part, on success replace it and continue, on a
`ZodError` answer 400 with the formatted issues, and forward any other
error. -/
def validate {β α : Type} (schema : β → ParseOutcome α) (part : β) : MwResult α :=
  match schema part with
  | .ok v => .next v
  | .zodError issues => .respond ⟨400, validationErrorBody issues⟩
  | .thrown e => .nextError e

/-- Reading of the spec's envelope claim: the body has a boolean `success`,
a `data` field, a string `message`, a string `timestamp`, and no key other
than these four and the optional `errors`. -/
def envelopeExact (body : JObj) : Bool :=
  (match lookupKey "success" body with | some (.bool _) => true | _ => false)
  && hasKey "data" body
  && (match lookupKey "message" body with | some (.str _) => true | _ => false)
  && (match lookupKey "timestamp" body with | some (.str _) => true | _ => false)
  && body.all (fun kv =>
       kv.1 == "success" || kv.1 == "data" || kv.1 == "message"
       || kv.1 == "timestamp" || kv.1 == "errors")

/-! ## Zod schemas from src/shared/validators.ts -/

/-- Embedding of `IdParamSchema` applied to the `:id` URL parameter:
`z.coerce.number().int().positive()`.  `Number(raw)` is `jsNumber`; a `NaN`
or non-integral coercion fails the number/int check and a non-positive
integer fails `positive()`, in both cases with a single issue at path
`id`. -/
def parseIdParam (raw : String) : ParseOutcome Int :=
  match jsNumber raw with
  | none => .zodError [⟨["id"], "Invalid input: expected number"⟩]
  | some n => if 0 < n then .ok n else .zodError [⟨["id"], "Too small: expected number to be >0"⟩]

/-- Simplified stand-in for the `z.email()` format test of
`src/shared/validators.ts`: exactly one `@` with nonempty sides and no
whitespace.  No claim settled in this development depends on the exact
extent of Zod's email pattern, only on what the schema does around it. -/
def isEmailLike (s : String) : Bool :=
  s.data.count '@' == 1
  && s.data.all (fun c => !jsSpaceB c)
  && !(s.data.head? == some '@')
  && !(s.data.getLast? == some '@')

/-- Outcome of parsing one object field: the issues it raises and the
(zero or one) cleaned key/value pair it contributes to the parsed object. -/
abbrev FieldOutcome := List ZodIssue × JObj

/-- Embedding of the overridden name fields of `baseContactSchema`:
`z.string().min(2, { message }).trim()` — the length check runs on the raw
string, then the trim transform is applied. -/
def parseNameField (key : String) (minMessage : String) (o : JObj) : FieldOutcome :=
  match lookupKey key o with
  | some (.str s) =>
      if 2 ≤ s.length then ([], [(key, JVal.str (jsTrim s))])
      else ([⟨[key], minMessage⟩], [])
  | _ => ([⟨[key], "Invalid input: expected string"⟩], [])

/-- Embedding of the email field of `baseContactSchema`:
`z.email({ message: "Format d'email invalide" }).toLowerCase().trim()` —
the format check runs on the raw string, then lower-casing, then trimming. -/
def parseEmailField (o : JObj) : FieldOutcome :=
  match lookupKey "email" o with
  | some (.str s) =>
      if isEmailLike s then ([], [("email", JVal.str (jsTrim (jsToLower s)))])
      else ([⟨["email"], "Format d'email invalide"⟩], [])
  | _ => ([⟨["email"], "Invalid input: expected string"⟩], [])

/-- Embedding of the optional nullable text columns (`phone`, `company`,
`notes`) as generated by `createInsertSchema`: an absent key stays absent,
`null` and strings pass through, anything else is an issue. -/
def parseOptionalTextField (key : String) (o : JObj) : FieldOutcome :=
  match lookupKey key o with
  | none => ([], [])
  | some .null => ([], [(key, JVal.null)])
  | some (.str s) => ([], [(key, JVal.str s)])
  | some _ => ([⟨[key], "Invalid input: expected string"⟩], [])

/-- The six fields of `CreateContactSchema` (`baseContactSchema` minus `id`,
`createdAt`, `updatedAt`), in declaration order. -/
def contactCreateFieldOutcomes (o : JObj) : List FieldOutcome :=
  [parseNameField "firstName" "Le prénom doit contenir au moins 2 caractères" o,
   parseNameField "lastName" "Le nom doit contenir au moins 2 caractères" o,
   parseEmailField o,
   parseOptionalTextField "phone" o,
   parseOptionalTextField "company" o,
   parseOptionalTextField "notes" o]

/-- Embedding of `CreateContactSchema.parseAsync` on a request body: collect
the issues of every field; with no issue the parsed object is exactly the
cleaned declared fields — Zod objects strip unknown keys. -/
def parseContactCreate (o : JObj) : ParseOutcome JObj :=
  let rs := contactCreateFieldOutcomes o
  let issues := (rs.map Prod.fst).flatten
  if issues = [] then .ok ((rs.map Prod.snd).flatten) else .zodError issues

/-- Partial variant of a field for `UpdateContactSchema =
CreateContactSchema.partial()`: an absent key is fine and contributes
nothing, a present key is validated as in the base schema. -/
def parsePartialField (f : JObj → FieldOutcome) (key : String) (o : JObj) : FieldOutcome :=
  if hasKey key o then f o else ([], [])

def contactUpdateFieldOutcomes (o : JObj) : List FieldOutcome :=
  [parsePartialField (parseNameField "firstName" "Le prénom doit contenir au moins 2 caractères") "firstName" o,
   parsePartialField (parseNameField "lastName" "Le nom doit contenir au moins 2 caractères") "lastName" o,
   parsePartialField parseEmailField "email" o,
   parsePartialField (parseOptionalTextField "phone") "phone" o,
   parsePartialField (parseOptionalTextField "company") "company" o,
   parsePartialField (parseOptionalTextField "notes") "notes" o]

/-- Embedding of `UpdateContactSchema.parseAsync`. -/
def parseContactUpdate (o : JObj) : ParseOutcome JObj :=
  let rs := contactUpdateFieldOutcomes o
  let issues := (rs.map Prod.fst).flatten
  if issues = [] then .ok ((rs.map Prod.snd).flatten) else .zodError issues

/-! ## Data model: enums and rows (src/shared/db-schema.ts) -/

/-- `TASK_STATUSES` of db-schema.ts. -/
inductive TaskStatus where
  | TODO | IN_PROGRESS | REVIEW | DONE
deriving Repr, DecidableEq

/-- Text stored in the `status` TEXT column for each enum member. -/
def TaskStatus.text : TaskStatus → String
  | .TODO => "TODO"
  | .IN_PROGRESS => "IN_PROGRESS"
  | .REVIEW => "REVIEW"
  | .DONE => "DONE"

def taskStatusOfText (s : String) : Option TaskStatus :=
  if s == "TODO" then some .TODO
  else if s == "IN_PROGRESS" then some .IN_PROGRESS
  else if s == "REVIEW" then some .REVIEW
  else if s == "DONE" then some .DONE
  else none

/-- `PRIORITIES` of db-schema.ts. -/
inductive TaskPriority where
  | LOW | MEDIUM | HIGH | URGENT
deriving Repr, DecidableEq

def TaskPriority.text : TaskPriority → String
  | .LOW => "LOW"
  | .MEDIUM => "MEDIUM"
  | .HIGH => "HIGH"
  | .URGENT => "URGENT"

/-- Embedding of `UpdateTaskStatusSchema`:
`z.object({ status: z.enum(['TODO','IN_PROGRESS','REVIEW','DONE']) })`. -/
def parseTaskStatusBody (o : JObj) : ParseOutcome JObj :=
  match lookupKey "status" o with
  | some (.str s) =>
      match taskStatusOfText s with
      | some _ => .ok [("status", JVal.str s)]
      | none => .zodError [⟨["status"], "Invalid option: expected one of the task statuses"⟩]
  | _ => .zodError [⟨["status"], "Invalid option: expected one of the task statuses"⟩]

/-- A row of the `Contact` table. -/
structure ContactRow where
  id : Int
  firstName : String
  lastName : String
  email : String
  phone : Option String
  company : Option String
  notes : Option String
  createdAt : Int
  updatedAt : Int
deriving Repr, DecidableEq

/-- A row of the `Project` table. -/
structure ProjectRow where
  id : Int
  name : String
  description : Option String
  status : String
  startDate : Int
  endDate : Option Int
  createdAt : Int
  updatedAt : Int
deriving Repr, DecidableEq

/-- A row of the `Task` table.  `assigneeId` references `Contact`
(`onDelete: 'set null'`) and `projectId` references `Project`
(`onDelete: 'cascade'`); both are nullable. -/
structure TaskRow where
  id : Int
  title : String
  description : Option String
  status : TaskStatus
  priority : TaskPriority
  dueDate : Option Int
  assigneeId : Option Int
  projectId : Option Int
  createdAt : Int
  updatedAt : Int
deriving Repr, DecidableEq

/-- A row of the `ProjectMember` join table; `contactId` and `projectId` both
cascade on delete, and the pair is unique. -/
structure ProjectMemberRow where
  id : Int
  role : String
  joinedAt : Int
  contactId : Int
  projectId : Int
deriving Repr, DecidableEq

/-- The whole SQLite database. -/
structure Store where
  contacts : List ContactRow
  projects : List ProjectRow
  tasks : List TaskRow
  projectMembers : List ProjectMemberRow
deriving Repr, DecidableEq

/-- SQLite constraint failures surfaced by better-sqlite3 as
`SQLITE_CONSTRAINT_UNIQUE` / `SQLITE_CONSTRAINT_FOREIGNKEY` error codes. -/
inductive DbError where
  | uniqueViolation
  | foreignKeyViolation
deriving Repr, DecidableEq

/-- The `HttpError` view of a rethrown SQLite error (no own `statusCode`,
so the global handler answers 500). -/
def sqliteHttpError : DbError → HttpError
  | .uniqueViolation => ⟨"UNIQUE constraint failed", none, none⟩
  | .foreignKeyViolation => ⟨"FOREIGN KEY constraint failed", none, none⟩

/-- AUTOINCREMENT model: one more than the largest id in the table. -/
def nextId (ids : List Int) : Int :=
  (ids.foldl max 0) + 1

/-! ## Contact DTOs, service and routes -/

/-- The `CreateContactDTO` shape inferred from `CreateContactSchema`. -/
structure CreateContactDTO where
  firstName : String
  lastName : String
  email : String
  phone : Option String
  company : Option String
  notes : Option String
deriving Repr, DecidableEq

/-- The `UpdateContactDTO` shape (every field optional); for the nullable
columns the inner `Option` is the SQL NULL. -/
structure UpdateContactDTO where
  firstName : Option String
  lastName : Option String
  email : Option String
  phone : Option (Option String)
  company : Option (Option String)
  notes : Option (Option String)
deriving Repr, DecidableEq

def asString : Option JVal → String
  | some (.str s) => s
  | _ => ""

/-- Value stored for an optional nullable text field: an absent key and an
explicit `null` both end up as SQL NULL. -/
def asOptText : Option JVal → Option String
  | some (.str s) => some s
  | _ => none

def asStrPresent : Option JVal → Option String
  | some (.str s) => some s
  | _ => none

def asOptTextPresent : Option JVal → Option (Option String)
  | none => none
  | some (.str s) => some (some s)
  | some _ => some none

/-- The TypeScript `req.body as CreateContactDTO` view of the validated
body. -/
def asCreateContactDTO (o : JObj) : CreateContactDTO :=
  { firstName := asString (lookupKey "firstName" o),
    lastName := asString (lookupKey "lastName" o),
    email := asString (lookupKey "email" o),
    phone := asOptText (lookupKey "phone" o),
    company := asOptText (lookupKey "company" o),
    notes := asOptText (lookupKey "notes" o) }

/-- The `req.body as UpdateContactDTO` view: a key that is absent from the
validated body is `undefined` and is skipped by `.set(data)`. -/
def asUpdateContactDTO (o : JObj) : UpdateContactDTO :=
  { firstName := asStrPresent (lookupKey "firstName" o),
    lastName := asStrPresent (lookupKey "lastName" o),
    email := asStrPresent (lookupKey "email" o),
    phone := asOptTextPresent (lookupKey "phone" o),
    company := asOptTextPresent (lookupKey "company" o),
    notes := asOptTextPresent (lookupKey "notes" o) }

def optTextJ : Option String → JVal
  | some s => JVal.str s
  | none => JVal.null

def optNumJ : Option Int → JVal
  | some n => JVal.num n
  | none => JVal.null

/-- JSON serialization of a contact row. -/
def contactRowJson (c : ContactRow) : JVal :=
  JVal.obj [("id", JVal.num c.id), ("firstName", JVal.str c.firstName),
            ("lastName", JVal.str c.lastName), ("email", JVal.str c.email),
            ("phone", optTextJ c.phone), ("company", optTextJ c.company),
            ("notes", optTextJ c.notes), ("createdAt", JVal.num c.createdAt),
            ("updatedAt", JVal.num c.updatedAt)]

/-- Embedding of `ContactService.create`, i.e.
`db.insert(contacts).values(data).returning()`: the `email` column is UNIQUE,
`id` autoincrements, `createdAt`/`updatedAt` take their defaults (`now`). -/
def dbInsertContact (now : Int) (d : CreateContactDTO) (s : Store) :
    Except DbError (ContactRow × Store) :=
  if s.contacts.any (fun c => c.email == d.email) then .error DbError.uniqueViolation
  else
    let row : ContactRow :=
      { id := nextId (s.contacts.map (fun c => c.id)),
        firstName := d.firstName, lastName := d.lastName, email := d.email,
        phone := d.phone, company := d.company, notes := d.notes,
        createdAt := now, updatedAt := now }
    .ok (row, { s with contacts := s.contacts ++ [row] })

/-- Field-wise effect of `.set(data)` on one row (`undefined` fields are
skipped) followed by the `$onUpdate` refresh of `updatedAt`. -/
def applyContactUpdate (u : UpdateContactDTO) (now : Int) (c : ContactRow) : ContactRow :=
  { c with
    firstName := u.firstName.getD c.firstName,
    lastName := u.lastName.getD c.lastName,
    email := u.email.getD c.email,
    phone := u.phone.getD c.phone,
    company := u.company.getD c.company,
    notes := u.notes.getD c.notes,
    updatedAt := now }

/-- Embedding of `ContactService.update`, i.e.
`db.update(contacts).set(data).where(eq(contacts.id, id)).returning()`:
update the rows matching the id (at most one, it is the primary key), fail
with a unique violation when the new email already belongs to a different
row, and return `none` when the id matches nothing. -/
def dbUpdateContact (now : Int) (id : Int) (u : UpdateContactDTO) (s : Store) :
    Except DbError (Option ContactRow × Store) :=
  if s.contacts.any (fun c => c.id == id) then
    let collide : Bool :=
      match u.email with
      | some e => s.contacts.any (fun c => !(c.id == id) && c.email == e)
      | none => false
    if collide then .error DbError.uniqueViolation
    else
      let s' : Store :=
        { s with contacts :=
            s.contacts.map (fun c => if c.id == id then applyContactUpdate u now c else c) }
      .ok (s'.contacts.find? (fun c => c.id == id), s')
  else .ok (none, s)

/-- Embedding of `ContactService.findById`. -/
def contactFindById (id : Int) (s : Store) : Option ContactRow :=
  s.contacts.find? (fun c => c.id == id)

/-- Route `POST /api/v1/contact` (contact.route.ts): validate the body with
`contactSchemas.create`, insert, answer 201; a `SQLITE_CONSTRAINT_UNIQUE`
failure answers 409, any other error is rethrown to the global handler. -/
def postContact (env : String) (now : Int) (ts : String) (rawBody : JObj) (s : Store) :
    HttpResponse × Store :=
  match validate parseContactCreate rawBody with
  | .respond r => (r, s)
  | .nextError e => (globalErrorHandler env e ts, s)
  | .next body =>
    let contactData := asCreateContactDTO body
    match dbInsertContact now contactData s with
    | .ok (contact, s') =>
        (⟨201, successResponse (contactRowJson contact) "Contact créé avec succès" ts⟩, s')
    | .error .uniqueViolation =>
        (⟨409, errorResponse "Cette adresse email est déjà utilisée" ts⟩, s)
    | .error e => (globalErrorHandler env (sqliteHttpError e) ts, s)

/-- Route `PUT /api/v1/contact/:id`. -/
def putContact (env : String) (now : Int) (ts : String) (idStr : String) (rawBody : JObj)
    (s : Store) : HttpResponse × Store :=
  match validate parseIdParam idStr with
  | .respond r => (r, s)
  | .nextError e => (globalErrorHandler env e ts, s)
  | .next id =>
    match validate parseContactUpdate rawBody with
    | .respond r => (r, s)
    | .nextError e => (globalErrorHandler env e ts, s)
    | .next body =>
      match dbUpdateContact now id (asUpdateContactDTO body) s with
      | .ok (some updated, s') =>
          (⟨200, successResponse (contactRowJson updated) "Contact mis à jour" ts⟩, s')
      | .ok (none, s') =>
          (⟨404, errorResponse "Contact introuvable pour mise à jour" ts⟩, s')
      | .error .uniqueViolation =>
          (⟨409, errorResponse "Cet email est déjà associé à un autre contact" ts⟩, s)
      | .error e => (globalErrorHandler env (sqliteHttpError e) ts, s)

/-- Route `GET /api/v1/contact/:id`. -/
def getContactById (env : String) (ts : String) (idStr : String) (s : Store) : HttpResponse :=
  match validate parseIdParam idStr with
  | .respond r => r
  | .nextError e => globalErrorHandler env e ts
  | .next id =>
    match contactFindById id s with
    | none => ⟨404, errorResponse "Contact introuvable" ts⟩
    | some contact => ⟨200, successResponse (contactRowJson contact) "Success" ts⟩

/-! ## Sorting (model of SQL ORDER BY) -/

/-- Insert into a sorted list according to the boolean relation `le`. -/
def insertLe {α : Type} (le : α → α → Bool) (a : α) : List α → List α
  | [] => [a]
  | b :: l => if le a b then a :: b :: l else b :: insertLe le a l

/-- Insertion sort; only its permutation property matters to the claims. -/
def sortByLe {α : Type} (le : α → α → Bool) : List α → List α
  | [] => []
  | a :: l => insertLe le a (sortByLe le l)

/-! ## Project service and routes -/

def projectRowJson (p : ProjectRow) : JVal :=
  JVal.obj [("id", JVal.num p.id), ("name", JVal.str p.name),
            ("description", optTextJ p.description), ("status", JVal.str p.status),
            ("startDate", JVal.num p.startDate), ("endDate", optNumJ p.endDate),
            ("createdAt", JVal.num p.createdAt), ("updatedAt", JVal.num p.updatedAt)]

/-- Embedding of the project service `findById` as far as any claim needs it:
the row lookup that decides between 404 and 200.  The `with:` relation
payload (members and tasks) that enriches the 200 body is not modelled; no
claim depends on that payload. -/
def projectFindById (id : Int) (s : Store) : Option ProjectRow :=
  s.projects.find? (fun p => p.id == id)

/-- Embedding of `db.delete(projects).where(eq(projects.id, id)).returning(...)`
together with the SQLite cascades declared in db-schema.ts: deleting a
project deletes the tasks whose `projectId` references it
(`onDelete: 'cascade'`) and its `ProjectMember` rows (`onDelete: 'cascade'`).
When no project row matches, nothing is deleted. -/
def dbDeleteProject (id : Int) (s : Store) : List ProjectRow × Store :=
  let deleted := s.projects.filter (fun p => p.id == id)
  if deleted.isEmpty then (deleted, s)
  else
    (deleted,
     { s with
       projects := s.projects.filter (fun p => !(p.id == id)),
       tasks := s.tasks.filter (fun t => !(t.projectId == some id)),
       projectMembers := s.projectMembers.filter (fun m => !(m.projectId == id)) })

/-- Embedding of the project service `remove`: true iff a row was deleted. -/
def projectRemove (id : Int) (s : Store) : Bool × Store :=
  let res := dbDeleteProject id s
  (!res.1.isEmpty, res.2)

/-- Embedding of the project service `getMembers`:
`db.query.projectMembers.findMany({ where: eq(projectMembers.projectId, projectId), with: contact, orderBy: desc(joinedAt) })`. -/
def getMembers (projectId : Int) (s : Store) : List ProjectMemberRow :=
  sortByLe (fun a b => b.joinedAt ≤ a.joinedAt)
    (s.projectMembers.filter (fun m => m.projectId == projectId))

/-- The selected contact columns joined onto a member row by `with: contact`. -/
def memberContactJson (s : Store) (contactId : Int) : JVal :=
  match s.contacts.find? (fun c => c.id == contactId) with
  | some c =>
      JVal.obj [("id", JVal.num c.id), ("firstName", JVal.str c.firstName),
                ("lastName", JVal.str c.lastName), ("email", JVal.str c.email),
                ("phone", optTextJ c.phone), ("company", optTextJ c.company)]
  | none => JVal.null

def memberJson (s : Store) (m : ProjectMemberRow) : JVal :=
  JVal.obj [("id", JVal.num m.id), ("role", JVal.str m.role),
            ("joinedAt", JVal.num m.joinedAt), ("contactId", JVal.num m.contactId),
            ("projectId", JVal.num m.projectId), ("contact", memberContactJson s m.contactId)]

/-- Route `GET /api/v1/project/:id/members` (project.route.ts): validate the
id param, then always answer 200 with the member list — there is no
existence check on the project. -/
def getProjectMembers (env : String) (ts : String) (idStr : String) (s : Store) : HttpResponse :=
  match validate parseIdParam idStr with
  | .respond r => r
  | .nextError e => globalErrorHandler env e ts
  | .next projectId =>
      ⟨200, successResponse (JVal.arr ((getMembers projectId s).map (memberJson s))) "Success" ts⟩

/-- Route `GET /api/v1/project/:id`. -/
def getProjectById (env : String) (ts : String) (idStr : String) (s : Store) : HttpResponse :=
  match validate parseIdParam idStr with
  | .respond r => r
  | .nextError e => globalErrorHandler env e ts
  | .next id =>
    match projectFindById id s with
    | none => ⟨404, errorResponse "Projet introuvable" ts⟩
    | some project => ⟨200, successResponse (projectRowJson project) "Success" ts⟩

/-- Route `DELETE /api/v1/project/:id`. -/
def deleteProject (env : String) (ts : String) (idStr : String) (s : Store) :
    HttpResponse × Store :=
  match validate parseIdParam idStr with
  | .respond r => (r, s)
  | .nextError e => (globalErrorHandler env e ts, s)
  | .next id =>
    let res := projectRemove id s
    if res.1 then (⟨200, successResponse JVal.null "Projet supprimé avec succès" ts⟩, res.2)
    else (⟨404, errorResponse "Projet introuvable" ts⟩, res.2)

/-! ## Task service and routes -/

/-- The `TaskFilters` object built by the task service callers.  The route
stores raw `Number(...)` results in the id fields, so they are JavaScript
numbers that may be `NaN` (`none` in the `jsNumber` model). -/
structure TaskFilters where
  status : Option String
  priority : Option String
  assigneeId : Option (Option Int)
  projectId : Option (Option Int)
deriving Repr, DecidableEq

def TaskFilters.none : TaskFilters := ⟨Option.none, Option.none, Option.none, Option.none⟩

/-- Conjunction of the `conditions` pushed by the task service `findAll`:
each filter contributes an `eq(...)` condition only when its value is truthy
(`if (filters.status) ...`, `if (filters.assigneeId) ...`).  An `eq` against
a NULL column is not satisfied, as in SQL. -/
def taskMatchesFilters (f : TaskFilters) (t : TaskRow) : Bool :=
  (match f.status with
   | some fs => if strTruthy fs then t.status.text == fs else true
   | none => true)
  && (match f.priority with
      | some fp => if strTruthy fp then t.priority.text == fp else true
      | none => true)
  && (match f.assigneeId with
      | some a => if jsNumTruthy a then t.assigneeId == some (a.getD 0) else true
      | none => true)
  && (match f.projectId with
      | some p => if jsNumTruthy p then t.projectId == some (p.getD 0) else true
      | none => true)

/-- The `orderBy: [desc(tasks.priority), asc(tasks.dueDate), desc(tasks.createdAt)]`
comparison; `priority` is a TEXT column so SQLite compares its text, and a
NULL `dueDate` sorts first in ASC order. -/
def taskOrderLe (a b : TaskRow) : Bool :=
  if a.priority.text == b.priority.text then
    if a.dueDate == b.dueDate then b.createdAt ≤ a.createdAt
    else
      match a.dueDate, b.dueDate with
      | none, _ => true
      | some _, none => false
      | some x, some y => x ≤ y
  else b.priority.text < a.priority.text

/-- Embedding of the task service `findAll`. -/
def taskFindAll (f : TaskFilters) (s : Store) : List TaskRow :=
  sortByLe taskOrderLe (s.tasks.filter (taskMatchesFilters f))

/-- Embedding of the task service `findById` as far as any claim needs it:
the row lookup; the `with:` assignee/project payload of the 200 body is not
modelled. -/
def taskFindById (id : Int) (s : Store) : Option TaskRow :=
  s.tasks.find? (fun t => t.id == id)

/-- The `UpdateTaskDTO` shape: every column optional, the nullable ones with
an inner `Option` for SQL NULL. -/
structure TaskUpdate where
  title : Option String
  description : Option (Option String)
  status : Option TaskStatus
  priority : Option TaskPriority
  dueDate : Option (Option Int)
  assigneeId : Option (Option Int)
  projectId : Option (Option Int)
deriving Repr, DecidableEq

def TaskUpdate.none : TaskUpdate :=
  ⟨Option.none, Option.none, Option.none, Option.none, Option.none, Option.none, Option.none⟩

/-- Field-wise effect of `.set(payload)` on a task row plus the `$onUpdate`
refresh of `updatedAt`. -/
def applyTaskUpdate (u : TaskUpdate) (now : Int) (t : TaskRow) : TaskRow :=
  { t with
    title := u.title.getD t.title,
    description := u.description.getD t.description,
    status := u.status.getD t.status,
    priority := u.priority.getD t.priority,
    dueDate := u.dueDate.getD t.dueDate,
    assigneeId := u.assigneeId.getD t.assigneeId,
    projectId := u.projectId.getD t.projectId,
    updatedAt := now }

/-- Foreign-key check SQLite runs on an updated task row: a non-NULL
`assigneeId` must reference a contact, a non-NULL `projectId` a project. -/
def taskUpdateFkOk (u : TaskUpdate) (s : Store) : Bool :=
  (match u.assigneeId with
   | some (some a) => s.contacts.any (fun c => c.id == a)
   | _ => true)
  && (match u.projectId with
      | some (some p) => s.projects.any (fun q => q.id == p)
      | _ => true)

/-- Result of the task service `update`: the refreshed row re-read by
`getTaskWithRelations`, a not-found miss, a constraint failure, or the
internal throw of `getTaskWithRelations` (unreachable on an in-memory
store). -/
inductive TaskUpdateResult where
  | ok (task : TaskRow) (s : Store)
  | notFound (s : Store)
  | dbError (e : DbError) (s : Store)
  | internalError (s : Store)

/-- Embedding of the task service `update`:
`db.update(tasks).set(payload).where(eq(tasks.id, id)).returning({id})`, then
`undefined` when no row matched, else `getTaskWithRelations(id)`. -/
def taskUpdateSvc (now : Int) (id : Int) (u : TaskUpdate) (s : Store) : TaskUpdateResult :=
  if s.tasks.any (fun t => t.id == id) then
    if taskUpdateFkOk u s then
      let s' : Store :=
        { s with tasks := s.tasks.map (fun t => if t.id == id then applyTaskUpdate u now t else t) }
      match taskFindById id s' with
      | some task => .ok task s'
      | none => .internalError s'
    else .dbError DbError.foreignKeyViolation s
  else .notFound s

/-- The `{ status }` payload `updateStatus` hands to `update`: only the
`status` column is set. -/
def statusOnly (st : TaskStatus) : TaskUpdate :=
  ⟨Option.none, Option.none, some st, Option.none, Option.none, Option.none, Option.none⟩

/-- Embedding of the task service `updateStatus`: `update(id, { status })`. -/
def taskUpdateStatus (now : Int) (id : Int) (st : TaskStatus) (s : Store) : TaskUpdateResult :=
  taskUpdateSvc now id (statusOnly st) s

def taskRowJson (t : TaskRow) : JVal :=
  JVal.obj [("id", JVal.num t.id), ("title", JVal.str t.title),
            ("description", optTextJ t.description), ("status", JVal.str t.status.text),
            ("priority", JVal.str t.priority.text), ("dueDate", optNumJ t.dueDate),
            ("assigneeId", optNumJ t.assigneeId), ("projectId", optNumJ t.projectId),
            ("createdAt", JVal.num t.createdAt), ("updatedAt", JVal.num t.updatedAt)]

/-- The `req.body as UpdateTaskStatusDTO` read of the validated body
(`const { status } = req.body`). -/
def asTaskStatus (o : JObj) : TaskStatus :=
  match lookupKey "status" o with
  | some (.str s) => (taskStatusOfText s).getD TaskStatus.TODO
  | _ => TaskStatus.TODO

/-- Route `PATCH /api/v1/task/:id/status` (task.route.ts): validate the id
param and the `{ status }` body, call `updateStatus`, 404 when the task does
not exist, else 200 with the refreshed task. -/
def patchTaskStatus (env : String) (now : Int) (ts : String) (idStr : String) (rawBody : JObj)
    (s : Store) : HttpResponse × Store :=
  match validate parseIdParam idStr with
  | .respond r => (r, s)
  | .nextError e => (globalErrorHandler env e ts, s)
  | .next id =>
    match validate parseTaskStatusBody rawBody with
    | .respond r => (r, s)
    | .nextError e => (globalErrorHandler env e ts, s)
    | .next body =>
      match taskUpdateStatus now id (asTaskStatus body) s with
      | .ok task s' => (⟨200, successResponse (taskRowJson task) "Statut mis à jour" ts⟩, s')
      | .notFound s' => (⟨404, errorResponse "Tâche introuvable" ts⟩, s')
      | .dbError e s' => (globalErrorHandler env (sqliteHttpError e) ts, s')
      | .internalError s' =>
          (globalErrorHandler env ⟨"Erreur interne : tâche introuvable après écriture.", none, none⟩ ts, s')

/-- Route `GET /api/v1/task/:id`. -/
def getTaskById (env : String) (ts : String) (idStr : String) (s : Store) : HttpResponse :=
  match validate parseIdParam idStr with
  | .respond r => r
  | .nextError e => globalErrorHandler env e ts
  | .next id =>
    match taskFindById id s with
    | none => ⟨404, errorResponse "Tâche introuvable" ts⟩
    | some task => ⟨200, successResponse (taskRowJson task) "Success" ts⟩

/-- The query-string pieces read by `GET /api/v1/task/list`
(`req.query` values are strings; an absent parameter is `undefined`). -/
structure TaskListQuery where
  status : Option String
  priority : Option String
  assigneeId : Option String
  projectId : Option String
deriving Repr, DecidableEq

def TaskListQuery.noFilters : TaskListQuery :=
  ⟨Option.none, Option.none, Option.none, Option.none⟩

/-- The filter object built by the list route: a query value is copied only
when truthy (`if (status) ...`), and the id values go through `Number`. -/
def buildTaskFilters (q : TaskListQuery) : TaskFilters :=
  { status := match q.status with
      | some v => if strTruthy v then some v else none
      | none => none,
    priority := match q.priority with
      | some v => if strTruthy v then some v else none
      | none => none,
    assigneeId := match q.assigneeId with
      | some v => if strTruthy v then some (jsNumber v) else none
      | none => none,
    projectId := match q.projectId with
      | some v => if strTruthy v then some (jsNumber v) else none
      | none => none }

/-- The task rows `GET /api/v1/task/list` answers with. -/
def taskListRows (q : TaskListQuery) (s : Store) : List TaskRow :=
  taskFindAll (buildTaskFilters q) s

/-- Route `GET /api/v1/task/list`. -/
def getTaskList (ts : String) (q : TaskListQuery) (s : Store) : HttpResponse :=
  ⟨200, successResponse (JVal.arr ((taskListRows q s).map taskRowJson))
          "Tâches récupérées avec succès" ts⟩

/-! ## Claim-side predicates and concrete fixtures -/

/-- An email value is stored normalized when lower-casing and trimming both
leave it unchanged. -/
def emailNormalized (e : String) : Prop :=
  jsToLower e = e ∧ jsTrim e = e

instance (e : String) : Decidable (emailNormalized e) := by
  unfold emailNormalized; infer_instance

/-- The keys declared by `CreateContactSchema`. -/
def contactCreateKeys : List String :=
  ["firstName", "lastName", "email", "phone", "company", "notes"]

/-- Reading of claim C6: a stored task satisfies a supplied query filter when
its column equals the filter value (the id filters compared through the
route's `Number` cast), and a task must satisfy every supplied filter. -/
def satisfiesQueryFilters (q : TaskListQuery) (t : TaskRow) : Bool :=
  (match q.status with | some v => t.status.text == v | none => true)
  && (match q.priority with | some v => t.priority.text == v | none => true)
  && (match q.assigneeId with | some v => t.assigneeId == jsNumber v | none => true)
  && (match q.projectId with | some v => t.projectId == jsNumber v | none => true)

/-- Fixture: a task assigned to contact 1. -/
def fxTask : TaskRow :=
  ⟨1, "Write report", Option.none, TaskStatus.TODO, TaskPriority.MEDIUM,
   Option.none, some 1, Option.none, 0, 0⟩

/-- Fixture: a list query whose only filter is `assigneeId=0`. -/
def fxZeroQuery : TaskListQuery :=
  ⟨Option.none, Option.none, some "0", Option.none⟩

/-- Fixture: a store holding only `fxTask`. -/
def fxTaskStore : Store := ⟨[], [], [fxTask], []⟩

/-- Fixture: a normalized contact row with id 1. -/
def fxContact : ContactRow :=
  ⟨1, "Ada", "Lovelace", "ada@calc.org", Option.none, Option.none, Option.none, 0, 0⟩

/-- Fixture: a store holding only `fxContact`. -/
def fxContactStore : Store := ⟨[fxContact], [], [], []⟩

/-- Fixture: a creation body that duplicates the fixture contact's email. -/
def fxDupBody : JObj :=
  [("firstName", JVal.str "Jo"), ("lastName", JVal.str "Do"),
   ("email", JVal.str "ada@calc.org")]

/-- Fixture: a creation body with an upper-case email and an unknown field. -/
def fxExtraBody : JObj :=
  [("firstName", JVal.str "Jo"), ("lastName", JVal.str "Do"),
   ("email", JVal.str "New@Mail.io"), ("isAdmin", JVal.bool true)]

/-- The contact row `fxExtraBody` inserts into `fxContactStore` at time 5. -/
def fxInsertedRow : ContactRow :=
  ⟨2, "Jo", "Do", "new@mail.io", Option.none, Option.none, Option.none, 5, 5⟩

/-- Fixture: a store for the cascade test — two projects, tasks and members
on both, plus a task outside any project. -/
def fxCascadeStore : Store :=
  ⟨[fxContact],
   [⟨1, "P1", Option.none, "active", 0, Option.none, 0, 0⟩,
    ⟨2, "P2", Option.none, "active", 0, Option.none, 0, 0⟩],
   [⟨1, "T1", Option.none, TaskStatus.TODO, TaskPriority.LOW, Option.none, Option.none, some 1, 0, 0⟩,
    ⟨2, "T2", Option.none, TaskStatus.DONE, TaskPriority.HIGH, Option.none, Option.none, some 2, 0, 0⟩,
    ⟨3, "T3", Option.none, TaskStatus.TODO, TaskPriority.MEDIUM, Option.none, Option.none, Option.none, 0, 0⟩],
   [⟨1, "member", 0, 1, 1⟩, ⟨2, "member", 0, 1, 2⟩]⟩

/-! ## Helper lemmas: sorting is a permutation -/

theorem insertLe_perm {α : Type} (le : α → α → Bool) (a : α) (l : List α) :
    List.Perm (insertLe le a l) (a :: l) := by
  induction l with
  | nil => exact List.Perm.refl _
  | cons b l ih =>
    rw [insertLe]
    split
    · exact List.Perm.refl _
    · exact ((ih.cons b).trans (List.Perm.swap a b l))

theorem sortByLe_perm {α : Type} (le : α → α → Bool) (l : List α) :
    List.Perm (sortByLe le l) l := by
  induction l with
  | nil => exact List.Perm.refl _
  | cons a l ih => exact (insertLe_perm le a (sortByLe le l)).trans (ih.cons a)

theorem mem_sortByLe {α : Type} (le : α → α → Bool) (l : List α) (a : α) :
    a ∈ sortByLe le l ↔ a ∈ l :=
  (sortByLe_perm le l).mem_iff

theorem sortByLe_nil {α : Type} (le : α → α → Bool) : sortByLe le [] = [] := rfl

/-! ## Helper lemmas: JavaScript string normalization -/

theorem jsCharLower_toNat (c : Char) :
    (jsCharLower c).toNat = if 65 ≤ c.toNat ∧ c.toNat ≤ 90 then c.toNat + 32 else c.toNat := by
  unfold jsCharLower
  split
  · rfl
  · rfl

theorem jsCharLower_not_upper (c : Char) :
    ¬ (65 ≤ (jsCharLower c).toNat ∧ (jsCharLower c).toNat ≤ 90) := by
  rw [jsCharLower_toNat]
  split <;> omega

theorem jsCharLower_idem (c : Char) : jsCharLower (jsCharLower c) = jsCharLower c := by
  rw [jsCharLower.eq_def]
  exact dif_neg (jsCharLower_not_upper c)

theorem jsSpaceB_jsCharLower (c : Char) : jsSpaceB (jsCharLower c) = jsSpaceB c := by
  simp only [jsSpaceB, jsCharLower_toNat]
  split
  · next h => simp only [decide_eq_decide]; omega
  · rfl

theorem dropWhile_map_jsCharLower (l : List Char) :
    (l.map jsCharLower).dropWhile jsSpaceB = (l.dropWhile jsSpaceB).map jsCharLower := by
  induction l with
  | nil => rfl
  | cons a l ih =>
    by_cases hpa : jsSpaceB a = true
    · simp [List.dropWhile_cons, jsSpaceB_jsCharLower, hpa, ih]
    · have hf : jsSpaceB a = false := by revert hpa; cases jsSpaceB a <;> simp
      simp [List.dropWhile_cons, jsSpaceB_jsCharLower, hf]

theorem rdropWhile_map_jsCharLower (l : List Char) :
    List.rdropWhile jsSpaceB (l.map jsCharLower) = (List.rdropWhile jsSpaceB l).map jsCharLower := by
  unfold List.rdropWhile
  rw [← List.map_reverse, dropWhile_map_jsCharLower, List.map_reverse]

theorem jsToLower_idem (s : String) : jsToLower (jsToLower s) = jsToLower s := by
  unfold jsToLower
  exact congrArg String.mk (by
    rw [List.map_map]
    exact List.map_congr_left fun a _ => jsCharLower_idem a)

theorem jsToLower_jsTrim (s : String) : jsToLower (jsTrim s) = jsTrim (jsToLower s) := by
  unfold jsToLower jsTrim
  exact congrArg String.mk (by
    rw [dropWhile_map_jsCharLower, rdropWhile_map_jsCharLower])

theorem dropWhile_head_false {α : Type} {p : α → Bool} {b : α} {bs : List α}
    (h : (b :: bs).dropWhile p = b :: bs) : p b = false := by
  cases hpb : p b with
  | false => rfl
  | true =>
    rw [List.dropWhile_cons, if_pos hpb] at h
    have hlen := congrArg List.length h
    have hle := (List.dropWhile_suffix (l := bs) p).sublist.length_le
    simp at hlen
    omega

theorem dropWhile_prefix_self {α : Type} {p : α → Bool} {A B : List α}
    (hA : A.dropWhile p = A) (hpre : B <+: A) : B.dropWhile p = B := by
  cases B with
  | nil => rfl
  | cons b bs =>
    obtain ⟨t, ht⟩ := hpre
    have hA' : A = b :: (bs ++ t) := by rw [← ht]; rfl
    rw [hA'] at hA
    have hb : p b = false := dropWhile_head_false hA
    rw [List.dropWhile_cons, if_neg (by simp [hb])]

theorem jsTrim_idem (s : String) : jsTrim (jsTrim s) = jsTrim s := by
  unfold jsTrim
  refine congrArg String.mk ?_
  have hA : (s.data.dropWhile jsSpaceB).dropWhile jsSpaceB = s.data.dropWhile jsSpaceB :=
    List.dropWhile_idempotent _ _
  have hpre : List.rdropWhile jsSpaceB (s.data.dropWhile jsSpaceB) <+: s.data.dropWhile jsSpaceB :=
    List.rdropWhile_prefix _ _
  have h1 : (List.rdropWhile jsSpaceB (s.data.dropWhile jsSpaceB)).dropWhile jsSpaceB
      = List.rdropWhile jsSpaceB (s.data.dropWhile jsSpaceB) :=
    dropWhile_prefix_self hA hpre
  rw [h1, List.rdropWhile_idempotent]

theorem emailNormalized_trim_lower (s : String) : emailNormalized (jsTrim (jsToLower s)) := by
  constructor
  · rw [jsToLower_jsTrim, jsToLower_idem]
  · exact jsTrim_idem _

/-! ## Claim C1: the response envelope -/

/-- Claim C1, counterexample: the 400 body the `validate` middleware sends for
a failing contact-creation body (here the empty body) does not carry the
claimed envelope — it has no `data` and no `timestamp` field. -/
theorem validate_400_escapes_envelope :
    validate parseContactCreate ([] : JObj)
      = .respond ⟨400, validationErrorBody
          [⟨["firstName"], "Invalid input: expected string"⟩,
           ⟨["lastName"], "Invalid input: expected string"⟩,
           ⟨["email"], "Invalid input: expected string"⟩]⟩ ∧
    envelopeExact (validationErrorBody
          [⟨["firstName"], "Invalid input: expected string"⟩,
           ⟨["lastName"], "Invalid input: expected string"⟩,
           ⟨["email"], "Invalid input: expected string"⟩]) = false :=
  ⟨rfl, rfl⟩

/-- Claim C1 as amended: bodies built by `createResponse` (hence every
`successResponse`/`errorResponse` answer of the route handlers) carry exactly
the envelope fields `success`, `data`, `message`, `timestamp`; but the
`validate` middleware's 400 body has exactly `success`, `message`, `errors`
(no `data`, no `timestamp`), and the global error handler's body has exactly
`success`, `message`, `timestamp` plus `stack` exactly in development when
the error carries a stack (never a `data` field). -/
theorem response_body_key_shapes :
    (∀ (b : Bool) (d : JVal) (m ts : String),
        envelopeExact (createResponse b d m ts) = true) ∧
    (∀ issues : List ZodIssue,
        objKeys (validationErrorBody issues) = ["success", "message", "errors"]) ∧
    (∀ (env : String) (err : HttpError) (ts : String),
        objKeys (globalErrorHandler env err ts).body =
          if env = "development" ∧ err.stack.isSome = true
          then ["success", "message", "stack", "timestamp"]
          else ["success", "message", "timestamp"]) := by
  refine ⟨?_, ?_, ?_⟩
  · intro b d m ts
    simp [envelopeExact, createResponse, lookupKey, hasKey, List.find?]
  · intro issues
    rfl
  · intro env err ts
    unfold globalErrorHandler objKeys
    by_cases hdev : env = "development"
    · cases hstack : err.stack <;> simp [hdev, hstack]
    · simp [hdev]

/-! ## Claim C3: validation failure behaviour -/

/-- Claim C3: whenever the designated request part fails its Zod schema, the
`validate` middleware answers 400 with `success: false` and one
`{ field, message }` entry per issue — `field` the dot-joined path, `message`
the issue message — and never passes control to the route handler. -/
theorem validate_rejects_with_field_messages {β α : Type}
    (schema : β → ParseOutcome α) (part : β) (issues : List ZodIssue)
    (h : schema part = .zodError issues) :
    validate schema part
      = .respond ⟨400,
          [("success", JVal.bool false),
           ("message", JVal.str "Données invalides"),
           ("errors", JVal.arr (issues.map (fun i =>
              JVal.obj [("field", JVal.str (String.intercalate "." i.path)),
                        ("message", JVal.str i.message)])))]⟩ ∧
    ∀ v : α, validate schema part ≠ .next v := by
  constructor
  · simp [validate, h, validationErrorBody, formatIssue]
  · intro v hv
    simp [validate, h] at hv

/-- Witness for C3, at the concrete failing id parameter `"abc"`. -/
theorem validate_rejects_witness :
    validate parseIdParam "abc"
      = .respond ⟨400,
          [("success", JVal.bool false),
           ("message", JVal.str "Données invalides"),
           ("errors", JVal.arr [JVal.obj
              [("field", JVal.str "id"),
               ("message", JVal.str "Invalid input: expected number")]])]⟩ ∧
    validate parseIdParam "abc" ≠ MwResult.next 3 := by
  have h := validate_rejects_with_field_messages parseIdParam "abc"
      [⟨["id"], "Invalid input: expected number"⟩] rfl
  exact ⟨h.1, h.2 3⟩

/-! ## Claim C8: the global error handler -/

/-- Claim C8, counterexample: in development, an error carrying
`statusCode = 404` and no stack is answered with status 404, not 500, and
without a `stack` field. -/
theorem global_handler_counterexample :
    ¬ (((globalErrorHandler "development" ⟨"Not found", Option.none, some 404⟩ "T").status = 500)
       ∧ hasKey "stack"
           (globalErrorHandler "development" ⟨"Not found", Option.none, some 404⟩ "T").body
         = true) := by
  decide

/-- Claim C8 as amended: the handler answers with the error's own
`statusCode` when that is a truthy number and 500 otherwise, and the body
carries a `stack` field iff `NODE_ENV` is `'development'` and the error has a
stack. -/
theorem global_handler_status_and_stack (env : String) (err : HttpError) (ts : String) :
    (globalErrorHandler env err ts).status
      = (match err.statusCode with
         | some n => if n ≠ 0 then n else 500
         | none => 500) ∧
    hasKey "stack" (globalErrorHandler env err ts).body
      = (decide (env = "development") && err.stack.isSome) := by
  refine ⟨rfl, ?_⟩
  unfold globalErrorHandler hasKey lookupKey
  by_cases hdev : env = "development"
  · cases hstack : err.stack <;> simp [hdev, hstack, List.find?]
  · simp [hdev, List.find?]

/-! ## Claim C2: duplicate contact email answers 409 -/

/-- Claim C2: a POST /api/v1/contact body that passes validation but whose
email equals a stored contact's email is answered 409 with `success: false`,
and the store — in particular the contact table — is unchanged. -/
theorem duplicate_email_post_contact (env : String) (now : Int) (ts : String)
    (raw body : JObj) (s : Store)
    (hparse : parseContactCreate raw = .ok body)
    (hdup : ∃ c ∈ s.contacts, c.email = (asCreateContactDTO body).email) :
    (postContact env now ts raw s).1.status = 409 ∧
    lookupKey "success" (postContact env now ts raw s).1.body = some (JVal.bool false) ∧
    (postContact env now ts raw s).2 = s := by
  have hany : s.contacts.any (fun c => c.email == (asCreateContactDTO body).email) = true := by
    obtain ⟨c, hc, he⟩ := hdup
    exact List.any_eq_true.mpr ⟨c, hc, by simp [he]⟩
  simp [postContact, validate, hparse, dbInsertContact, hany, errorResponse, createResponse,
    lookupKey, List.find?]

/-- Witness for C2, at the fixture store and its duplicate-email body. -/
theorem duplicate_email_post_contact_witness :
    (postContact "development" 5 "T" fxDupBody fxContactStore).1.status = 409 ∧
    lookupKey "success" (postContact "development" 5 "T" fxDupBody fxContactStore).1.body
      = some (JVal.bool false) ∧
    (postContact "development" 5 "T" fxDupBody fxContactStore).2 = fxContactStore :=
  duplicate_email_post_contact "development" 5 "T" fxDupBody
    [("firstName", JVal.str "Jo"), ("lastName", JVal.str "Do"),
     ("email", JVal.str "ada@calc.org")]
    fxContactStore (by rfl) ⟨fxContact, by decide, by decide⟩

/-! ## Claim C7: validation strips unknown keys -/

theorem parseNameField_keys (key msg : String) (o : JObj) :
    ∀ kv ∈ (parseNameField key msg o).2, kv.1 = key := by
  intro kv hkv
  unfold parseNameField at hkv
  split at hkv
  · split at hkv <;> simp_all
  · simp_all

theorem parseEmailField_keys (o : JObj) :
    ∀ kv ∈ (parseEmailField o).2, kv.1 = "email" := by
  intro kv hkv
  unfold parseEmailField at hkv
  split at hkv
  · split at hkv <;> simp_all
  · simp_all

theorem parseOptionalTextField_keys (key : String) (o : JObj) :
    ∀ kv ∈ (parseOptionalTextField key o).2, kv.1 = key := by
  intro kv hkv
  unfold parseOptionalTextField at hkv
  split at hkv <;> simp_all

theorem parsePartialField_keys (f : JObj → FieldOutcome) (key : String) (o : JObj)
    (hf : ∀ o', ∀ kv ∈ (f o').2, kv.1 = key) :
    ∀ kv ∈ (parsePartialField f key o).2, kv.1 = key := by
  intro kv hkv
  unfold parsePartialField at hkv
  split at hkv
  · exact hf o kv hkv
  · simp_all

/-- Every key of a successfully parsed contact-creation body is one of the
schema's declared keys — Zod objects strip everything else. -/
theorem parseContactCreate_keys (raw out : JObj) (h : parseContactCreate raw = .ok out) :
    ∀ kv ∈ out, kv.1 ∈ contactCreateKeys := by
  intro kv hkv
  simp only [parseContactCreate] at h
  split at h
  · have hout : ((contactCreateFieldOutcomes raw).map Prod.snd).flatten = out := by
      injection h
    rw [← hout] at hkv
    simp only [contactCreateFieldOutcomes, List.map_cons, List.map_nil, List.flatten_cons,
      List.flatten_nil, List.append_nil, List.mem_append] at hkv
    rcases hkv with h1 | h2 | h3 | h4 | h5 | h6
    · rw [parseNameField_keys _ _ _ kv h1]; simp [contactCreateKeys]
    · rw [parseNameField_keys _ _ _ kv h2]; simp [contactCreateKeys]
    · rw [parseEmailField_keys _ kv h3]; simp [contactCreateKeys]
    · rw [parseOptionalTextField_keys _ _ kv h4]; simp [contactCreateKeys]
    · rw [parseOptionalTextField_keys _ _ kv h5]; simp [contactCreateKeys]
    · rw [parseOptionalTextField_keys _ _ kv h6]; simp [contactCreateKeys]
  · exact absurd h (by simp)

/-- Claim C7: on validation success the middleware hands the route handler
the parsed value in place of the raw body, and that value carries only keys
declared by the schema — unknown fields of a POST /api/v1/contact body never
reach the contact service. -/
theorem contact_body_stripped (raw out : JObj) (h : parseContactCreate raw = .ok out) :
    validate parseContactCreate raw = .next out ∧
    out.all (fun kv => decide (kv.1 ∈ contactCreateKeys)) = true := by
  constructor
  · simp [validate, h]
  · rw [List.all_eq_true]
    intro kv hkv
    simpa using parseContactCreate_keys raw out h kv hkv

/-- Witness for C7: a body with an unknown `isAdmin` field is replaced by the
parsed body, in which that field no longer occurs. -/
theorem contact_body_stripped_witness :
    validate parseContactCreate fxExtraBody
      = .next [("firstName", JVal.str "Jo"), ("lastName", JVal.str "Do"),
               ("email", JVal.str "new@mail.io")] ∧
    ([("firstName", JVal.str "Jo"), ("lastName", JVal.str "Do"),
      ("email", JVal.str "new@mail.io")] : JObj).all
        (fun kv => decide (kv.1 ∈ contactCreateKeys)) = true :=
  contact_body_stripped fxExtraBody
    [("firstName", JVal.str "Jo"), ("lastName", JVal.str "Do"),
     ("email", JVal.str "new@mail.io")] (by rfl)


/-! ## Claim C4: deleting a project cascades -/

theorem filter_not_then_eq_nil {α : Type} (p : α → Bool) (l : List α) :
    (l.filter (fun a => !p a)).filter p = [] := by
  induction l with
  | nil => rfl
  | cons a l ih =>
    by_cases h : p a = true
    · simp [List.filter_cons, h, ih]
    · have h' : p a = false := by revert h; cases p a <;> simp
      simp [List.filter_cons, h', ih]

theorem filter_not_then_other {α : Type} (p q : α → Bool) (l : List α)
    (himp : ∀ a, q a = true → p a = false) :
    (l.filter (fun a => !p a)).filter q = l.filter q := by
  induction l with
  | nil => rfl
  | cons a l ih =>
    by_cases hq : q a = true
    · have hp := himp a hq
      simp [List.filter_cons, hp, hq, ih]
    · have hq' : q a = false := by revert hq; cases q a <;> simp
      by_cases hp : p a = true <;> simp [List.filter_cons, hp, hq', ih]

/-- Claim C4: after a successful DELETE /api/v1/project/:id (the project
exists), the route answers 200, no task row and no ProjectMember row
referencing that project id remains in the store, and the tasks and
memberships of every other project are exactly as before. -/
theorem delete_project_cascades (env ts idStr : String) (s : Store) (pid : Int)
    (hid : parseIdParam idStr = .ok pid)
    (hex : ∃ p ∈ s.projects, p.id = pid) :
    (deleteProject env ts idStr s).1.status = 200 ∧
    ((deleteProject env ts idStr s).2.tasks.filter (fun t => t.projectId == some pid)) = [] ∧
    ((deleteProject env ts idStr s).2.projectMembers.filter (fun m => m.projectId == pid)) = [] ∧
    (∀ j : Int, j ≠ pid →
      ((deleteProject env ts idStr s).2.tasks.filter (fun t => t.projectId == some j)
          = s.tasks.filter (fun t => t.projectId == some j) ∧
       (deleteProject env ts idStr s).2.projectMembers.filter (fun m => m.projectId == j)
          = s.projectMembers.filter (fun m => m.projectId == j))) := by
  have hval : validate parseIdParam idStr = .next pid := by simp [validate, hid]
  have hne : (s.projects.filter (fun p => p.id == pid)).isEmpty = false := by
    obtain ⟨p, hp, hpe⟩ := hex
    have hmem : p ∈ s.projects.filter (fun p => p.id == pid) :=
      List.mem_filter.mpr ⟨hp, by simp [hpe]⟩
    cases hfil : s.projects.filter (fun p => p.id == pid) with
    | nil => rw [hfil] at hmem; cases hmem
    | cons a l => rfl
  have hroute : deleteProject env ts idStr s
      = (⟨200, successResponse JVal.null "Projet supprimé avec succès" ts⟩,
         { s with
           projects := s.projects.filter (fun p => !(p.id == pid)),
           tasks := s.tasks.filter (fun t => !(t.projectId == some pid)),
           projectMembers := s.projectMembers.filter (fun m => !(m.projectId == pid)) }) := by
    unfold deleteProject
    rw [hval]
    simp only [projectRemove, dbDeleteProject, hne, Bool.false_eq_true, if_false,
      Bool.not_false, if_true]
  rw [hroute]
  refine ⟨rfl, ?_, ?_, ?_⟩
  · exact filter_not_then_eq_nil _ _
  · exact filter_not_then_eq_nil _ _
  · intro j hj
    constructor
    · refine filter_not_then_other _ _ _ ?_
      intro t htj
      have : t.projectId = some j := by simpa using htj
      simp [this, hj]
    · refine filter_not_then_other _ _ _ ?_
      intro m hmj
      have : m.projectId = j := by simpa using hmj
      simp [this, hj]

/-- Witness for C4 on the two-project fixture store, deleting project 1 and
checking project 2's rows survive. -/
theorem delete_project_cascades_witness :
    (deleteProject "development" "T" "1" fxCascadeStore).1.status = 200 ∧
    ((deleteProject "development" "T" "1" fxCascadeStore).2.tasks.filter
        (fun t => t.projectId == some 1)) = [] ∧
    ((deleteProject "development" "T" "1" fxCascadeStore).2.projectMembers.filter
        (fun m => m.projectId == 1)) = [] ∧
    ((deleteProject "development" "T" "1" fxCascadeStore).2.tasks.filter
          (fun t => t.projectId == some 2)
        = fxCascadeStore.tasks.filter (fun t => t.projectId == some 2) ∧
      (deleteProject "development" "T" "1" fxCascadeStore).2.projectMembers.filter
          (fun m => m.projectId == 2)
        = fxCascadeStore.projectMembers.filter (fun m => m.projectId == 2)) := by
  have h := delete_project_cascades "development" "T" "1" fxCascadeStore 1 (by rfl)
      ⟨⟨1, "P1", Option.none, "active", 0, Option.none, 0, 0⟩, by decide, rfl⟩
  exact ⟨h.1, h.2.1, h.2.2.1, h.2.2.2 2 (by decide)⟩

/-! ## Claim C5: task status update round-trips -/

theorem find?_update_of_nodup {α : Type} (key : α → Int) (l : List α) (id : Int) (f : α → α)
    (hnd : (l.map key).Nodup) (t0 : α) (ht : t0 ∈ l) (hid : key t0 = id)
    (hf : ∀ t, key (f t) = key t) :
    (l.map (fun t => if key t == id then f t else t)).find? (fun t => key t == id)
      = some (f t0) := by
  induction l with
  | nil => cases ht
  | cons a l ih =>
    rw [List.map_cons]
    by_cases ha : key a = id
    · have haeq : a = t0 := by
        rcases List.mem_cons.mp ht with h | h
        · exact h.symm
        · exfalso
          have hmem : key t0 ∈ l.map key := List.mem_map_of_mem key h
          rw [hid, ← ha] at hmem
          exact (List.nodup_cons.mp hnd).1 hmem
      subst haeq
      simp only [ha, beq_self_eq_true, if_true]
      simp [List.find?_cons, hf, ha]
    · have hne : (key a == id) = false := by simp [ha]
      simp only [hne, Bool.false_eq_true, if_false]
      simp only [List.find?_cons, hne]
      have ht0 : t0 ∈ l := by
        rcases List.mem_cons.mp ht with h | h
        · exact absurd (h ▸ hid) ha
        · exact h
      exact ih (List.nodup_cons.mp hnd).2 ht0

/-- Claim C5: for every existing task id and every status value, answering
PATCH /api/v1/task/:id/status and reading the task back with `findById`
yields the task with exactly the written status, all other fields except
`updatedAt` unchanged (`updatedAt` becomes the update time). -/
theorem patch_status_round_trip (env : String) (now : Int) (ts idStr : String)
    (st : TaskStatus) (s : Store) (t0 : TaskRow)
    (hid : parseIdParam idStr = .ok t0.id)
    (hnd : (s.tasks.map (fun t => t.id)).Nodup)
    (ht : t0 ∈ s.tasks) :
    (patchTaskStatus env now ts idStr [("status", JVal.str st.text)] s).1.status = 200 ∧
    taskFindById t0.id (patchTaskStatus env now ts idStr [("status", JVal.str st.text)] s).2
      = some { t0 with status := st, updatedAt := now } := by
  have hval1 : validate parseIdParam idStr = .next t0.id := by simp [validate, hid]
  have hbody : parseTaskStatusBody [("status", JVal.str st.text)]
      = .ok [("status", JVal.str st.text)] := by cases st <;> rfl
  have hval2 : validate parseTaskStatusBody [("status", JVal.str st.text)]
      = .next [("status", JVal.str st.text)] := by simp [validate, hbody]
  have hstat : asTaskStatus [("status", JVal.str st.text)] = st := by cases st <;> rfl
  have hany : s.tasks.any (fun t => t.id == t0.id) = true :=
    List.any_eq_true.mpr ⟨t0, ht, by simp⟩
  have hfk : taskUpdateFkOk (statusOnly st) s = true := rfl
  have hfind :
      (s.tasks.map (fun t => if t.id == t0.id
          then applyTaskUpdate (statusOnly st) now t else t)).find?
        (fun t => t.id == t0.id)
      = some (applyTaskUpdate (statusOnly st) now t0) :=
    find?_update_of_nodup (fun t => t.id) s.tasks t0.id
      (applyTaskUpdate (statusOnly st) now) hnd t0 ht rfl (by intro t; rfl)
  have happly : applyTaskUpdate (statusOnly st) now t0
      = { t0 with status := st, updatedAt := now } := rfl
  have hsvc : taskUpdateStatus now t0.id st s
      = .ok ({ t0 with status := st, updatedAt := now })
          { s with tasks := s.tasks.map (fun t => if t.id == t0.id
              then applyTaskUpdate (statusOnly st) now t else t) } := by
    unfold taskUpdateStatus taskUpdateSvc
    simp only [hany, if_true, hfk, taskFindById]
    rw [hfind, happly]
  unfold patchTaskStatus
  rw [hval1, hval2]
  simp only [hstat, hsvc]
  constructor
  · trivial
  · simp only [taskFindById]
    rw [hfind, happly]

/-- Witness for C5: set the fixture task to DONE at time 9 and read it back. -/
theorem patch_status_round_trip_witness :
    (patchTaskStatus "development" 9 "T" "1"
        [("status", JVal.str TaskStatus.DONE.text)] fxTaskStore).1.status = 200 ∧
    taskFindById fxTask.id (patchTaskStatus "development" 9 "T" "1"
        [("status", JVal.str TaskStatus.DONE.text)] fxTaskStore).2
      = some { fxTask with status := TaskStatus.DONE, updatedAt := 9 } :=
  patch_status_round_trip "development" 9 "T" "1" TaskStatus.DONE fxTaskStore fxTask
    (by rfl) (by decide) (by decide)

/-! ## Claim C6: task list filters -/

/-- Claim C6, counterexample: with `assigneeId=0` supplied, the route builds
the filter (the string `"0"` is truthy) but the service drops it (the number
`0` is falsy), so the listing returns the task assigned to contact 1 even
though it does not satisfy the supplied filter. -/
theorem task_filter_zero_counterexample :
    taskListRows fxZeroQuery fxTaskStore
      ≠ fxTaskStore.tasks.filter (satisfiesQueryFilters fxZeroQuery) := by
  decide

theorem statusFilterEq (t : TaskRow) (q : TaskListQuery)
    (hS : ∀ v, q.status = some v → v ≠ "") :
    (match (buildTaskFilters q).status with
     | some fs => if strTruthy fs then t.status.text == fs else true
     | none => true)
    = (match q.status with | some v => t.status.text == v | none => true) := by
  rcases h : q.status with _ | v
  · simp [buildTaskFilters, h]
  · have hv := hS v h
    simp [buildTaskFilters, h, strTruthy, hv]

theorem priorityFilterEq (t : TaskRow) (q : TaskListQuery)
    (hP : ∀ v, q.priority = some v → v ≠ "") :
    (match (buildTaskFilters q).priority with
     | some fp => if strTruthy fp then t.priority.text == fp else true
     | none => true)
    = (match q.priority with | some v => t.priority.text == v | none => true) := by
  rcases h : q.priority with _ | v
  · simp [buildTaskFilters, h]
  · have hv := hP v h
    simp [buildTaskFilters, h, strTruthy, hv]

theorem assigneeFilterEq (t : TaskRow) (q : TaskListQuery)
    (hA : ∀ v, q.assigneeId = some v → ∃ n, jsNumber v = some n ∧ n ≠ 0) :
    (match (buildTaskFilters q).assigneeId with
     | some a => if jsNumTruthy a then t.assigneeId == some (a.getD 0) else true
     | none => true)
    = (match q.assigneeId with | some v => t.assigneeId == jsNumber v | none => true) := by
  rcases h : q.assigneeId with _ | v
  · simp [buildTaskFilters, h]
  · obtain ⟨n, hn, hnz⟩ := hA v h
    have hvne : v ≠ "" := by
      intro hv
      rw [hv, show jsNumber "" = some 0 from rfl] at hn
      cases hn
      exact hnz rfl
    simp [buildTaskFilters, h, strTruthy, hvne, hn, jsNumTruthy, hnz]

theorem projectFilterEq (t : TaskRow) (q : TaskListQuery)
    (hP : ∀ v, q.projectId = some v → ∃ n, jsNumber v = some n ∧ n ≠ 0) :
    (match (buildTaskFilters q).projectId with
     | some p => if jsNumTruthy p then t.projectId == some (p.getD 0) else true
     | none => true)
    = (match q.projectId with | some v => t.projectId == jsNumber v | none => true) := by
  rcases h : q.projectId with _ | v
  · simp [buildTaskFilters, h]
  · obtain ⟨n, hn, hnz⟩ := hP v h
    have hvne : v ≠ "" := by
      intro hv
      rw [hv, show jsNumber "" = some 0 from rfl] at hn
      cases hn
      exact hnz rfl
    simp [buildTaskFilters, h, strTruthy, hvne, hn, jsNumTruthy, hnz]

/-- Claim C6 as amended: for every combination of supplied filters in which
each id value coerces to a nonzero number and each status/priority value is a
non-empty string, GET /api/v1/task/list returns exactly the stored tasks
satisfying every supplied filter (conjunction); with no filters supplied the
hypotheses hold vacuously, so it returns all tasks.  (A supplied id filter
that coerces to `0` or `NaN` is dropped by the service's truthiness check —
the counterexample — and an empty string never survives the route's own
truthiness check.) -/
theorem task_list_filters_conjunction (q : TaskListQuery) (s : Store)
    (hA : ∀ v, q.assigneeId = some v → ∃ n, jsNumber v = some n ∧ n ≠ 0)
    (hP : ∀ v, q.projectId = some v → ∃ n, jsNumber v = some n ∧ n ≠ 0)
    (hS : ∀ v, q.status = some v → v ≠ "")
    (hPr : ∀ v, q.priority = some v → v ≠ "") :
    ∀ t : TaskRow, t ∈ taskListRows q s ↔ (t ∈ s.tasks ∧ satisfiesQueryFilters q t = true) := by
  intro t
  have hmatch : taskMatchesFilters (buildTaskFilters q) t = satisfiesQueryFilters q t := by
    unfold taskMatchesFilters satisfiesQueryFilters
    rw [statusFilterEq t q hS, priorityFilterEq t q hPr, assigneeFilterEq t q hA,
      projectFilterEq t q hP]
  unfold taskListRows taskFindAll
  rw [mem_sortByLe, List.mem_filter, hmatch]

/-- Witness for C6: filtering by `assigneeId=1` keeps the fixture task, which
satisfies the filter. -/
theorem task_list_filters_witness :
    fxTask ∈ taskListRows ⟨Option.none, Option.none, some "1", Option.none⟩ fxTaskStore
      ↔ (fxTask ∈ fxTaskStore.tasks ∧
         satisfiesQueryFilters ⟨Option.none, Option.none, some "1", Option.none⟩ fxTask = true) :=
  task_list_filters_conjunction ⟨Option.none, Option.none, some "1", Option.none⟩ fxTaskStore
    (by intro v hv; cases hv; exact ⟨1, rfl, by decide⟩)
    (by intro v hv; cases hv)
    (by intro v hv; cases hv)
    (by intro v hv; cases hv)
    fxTask

/-! ## Claim C10: members of a missing project -/

/-- Claim C10: GET /api/v1/project/:id/members for a positive id matching no
stored project answers 200 with `success: true` and an empty list (given the
foreign-key invariant that every membership references an existing project),
while the `:id` read endpoints of project, contact and task all answer 404
for an id matching no row. -/
theorem missing_project_members_ok (env ts idStr : String) (s : Store) (pid : Int)
    (hid : parseIdParam idStr = .ok pid)
    (hnoproj : ∀ p ∈ s.projects, p.id ≠ pid)
    (hfk : ∀ m ∈ s.projectMembers, ∃ p ∈ s.projects, p.id = m.projectId)
    (hnocontact : ∀ c ∈ s.contacts, c.id ≠ pid)
    (hnotask : ∀ t ∈ s.tasks, t.id ≠ pid) :
    getProjectMembers env ts idStr s
      = ⟨200, successResponse (JVal.arr []) "Success" ts⟩ ∧
    (getProjectById env ts idStr s).status = 404 ∧
    (getContactById env ts idStr s).status = 404 ∧
    (getTaskById env ts idStr s).status = 404 := by
  have hval : validate parseIdParam idStr = .next pid := by simp [validate, hid]
  have hmemfil : s.projectMembers.filter (fun m => m.projectId == pid) = [] := by
    rw [List.filter_eq_nil_iff]
    intro m hm
    obtain ⟨p, hp, hpe⟩ := hfk m hm
    have : m.projectId ≠ pid := by
      intro he
      exact hnoproj p hp (by rw [hpe, he])
    simp [this]
  have hmembers : getMembers pid s = [] := by
    unfold getMembers
    rw [hmemfil]
    rfl
  have hproj : projectFindById pid s = none := by
    unfold projectFindById
    rw [List.find?_eq_none]
    intro p hp
    simp [hnoproj p hp]
  have hcont : contactFindById pid s = none := by
    unfold contactFindById
    rw [List.find?_eq_none]
    intro c hc
    simp [hnocontact c hc]
  have htask : taskFindById pid s = none := by
    unfold taskFindById
    rw [List.find?_eq_none]
    intro t htm
    simp [hnotask t htm]
  refine ⟨?_, ?_, ?_, ?_⟩
  · unfold getProjectMembers
    rw [hval]
    simp only [hmembers, List.map_nil]
  · unfold getProjectById
    rw [hval]
    simp only [hproj]
  · unfold getContactById
    rw [hval]
    simp only [hcont]
  · unfold getTaskById
    rw [hval]
    simp only [htask]

/-- Witness for C10: id 9 exists nowhere in the cascade fixture store. -/
theorem missing_project_members_ok_witness :
    getProjectMembers "development" "T" "9" fxCascadeStore
      = ⟨200, successResponse (JVal.arr []) "Success" "T"⟩ ∧
    (getProjectById "development" "T" "9" fxCascadeStore).status = 404 ∧
    (getContactById "development" "T" "9" fxCascadeStore).status = 404 ∧
    (getTaskById "development" "T" "9" fxCascadeStore).status = 404 :=
  missing_project_members_ok "development" "T" "9" fxCascadeStore 9 (by rfl)
    (by decide) (by decide) (by decide) (by decide)

/-! ## Claim C9: stored emails are normalized -/

theorem lookupKey_cons_self (k : String) (v : JVal) (l : JObj) :
    lookupKey k ((k, v) :: l) = some v := by
  simp [lookupKey, List.find?_cons]

theorem lookupKey_append_right (k : String) (l₁ l₂ : JObj)
    (h : ∀ kv ∈ l₁, kv.1 ≠ k) : lookupKey k (l₁ ++ l₂) = lookupKey k l₂ := by
  induction l₁ with
  | nil => rfl
  | cons a l ih =>
    rw [List.cons_append]
    have ha : (a.1 == k) = false := by simp [h a (List.mem_cons_self a l)]
    unfold lookupKey
    simp only [List.find?_cons, ha]
    exact ih (fun kv hkv => h kv (List.mem_cons_of_mem a hkv))

theorem lookupKey_eq_none_of_keys (k : String) (l : JObj) (h : ∀ kv ∈ l, kv.1 ≠ k) :
    lookupKey k l = none := by
  induction l with
  | nil => rfl
  | cons a l ih =>
    have ha : (a.1 == k) = false := by simp [h a (List.mem_cons_self a l)]
    unfold lookupKey
    simp only [List.find?_cons, ha]
    exact ih (fun kv hkv => h kv (List.mem_cons_of_mem a hkv))

theorem parseNameField_success (key msg : String) (o : JObj)
    (h : (parseNameField key msg o).1 = []) :
    ∃ s, (parseNameField key msg o).2 = [(key, JVal.str (jsTrim s))] := by
  unfold parseNameField at h ⊢
  rcases hlk : lookupKey key o with _ | v
  · rw [hlk] at h
    simp at h
  · rcases v with _ | b | n | sv | el | fl
    case str =>
      by_cases hlen : 2 ≤ sv.length
      · exact ⟨sv, by simp [hlen]⟩
      · exfalso
        rw [hlk] at h
        simp [hlen] at h
    all_goals (rw [hlk] at h; simp at h)

theorem parseEmailField_success (o : JObj)
    (h : (parseEmailField o).1 = []) :
    ∃ s, (parseEmailField o).2 = [("email", JVal.str (jsTrim (jsToLower s)))] := by
  unfold parseEmailField at h ⊢
  rcases hlk : lookupKey "email" o with _ | v
  · rw [hlk] at h
    simp at h
  · rcases v with _ | b | n | sv | el | fl
    case str =>
      by_cases hem : isEmailLike sv = true
      · exact ⟨sv, by simp [hem]⟩
      · exfalso
        rw [hlk] at h
        simp [hem] at h
    all_goals (rw [hlk] at h; simp at h)

/-- The email field of a successfully parsed creation body is present and
normalized: it went through `toLowerCase` and `trim`. -/
theorem parseContactCreate_email (raw out : JObj) (h : parseContactCreate raw = .ok out) :
    ∃ e, lookupKey "email" out = some (JVal.str e) ∧ emailNormalized e := by
  simp only [parseContactCreate] at h
  split at h
  · next hiss =>
    injection h with hout
    subst hout
    simp only [contactCreateFieldOutcomes, List.map_cons, List.map_nil, List.flatten_cons,
      List.flatten_nil, List.append_nil, List.append_eq_nil] at hiss
    obtain ⟨h1, h2, h3, _h4, _h5, _h6⟩ := hiss
    obtain ⟨s3, hs3⟩ := parseEmailField_success raw h3
    refine ⟨jsTrim (jsToLower s3), ?_, emailNormalized_trim_lower s3⟩
    simp only [contactCreateFieldOutcomes, List.map_cons, List.map_nil, List.flatten_cons,
      List.flatten_nil, List.append_nil]
    rw [lookupKey_append_right _ _ _ (fun kv hkv => by
        rw [parseNameField_keys "firstName" "Le prénom doit contenir au moins 2 caractères" raw kv hkv]
        decide),
      lookupKey_append_right _ _ _ (fun kv hkv => by
        rw [parseNameField_keys "lastName" "Le nom doit contenir au moins 2 caractères" raw kv hkv]
        decide),
      hs3, List.singleton_append, lookupKey_cons_self]
  · exact absurd h (by simp)

/-- A present email field of a successfully parsed update body is likewise
normalized. -/
theorem parseContactUpdate_email (raw out : JObj) (h : parseContactUpdate raw = .ok out) :
    ∀ v, lookupKey "email" out = some v → ∃ e, v = JVal.str e ∧ emailNormalized e := by
  intro v hv
  simp only [parseContactUpdate] at h
  split at h
  · next hiss =>
    injection h with hout
    subst hout
    simp only [contactUpdateFieldOutcomes, List.map_cons, List.map_nil, List.flatten_cons,
      List.flatten_nil, List.append_nil, List.append_eq_nil] at hiss
    obtain ⟨h1, h2, h3, h4, h5, h6⟩ := hiss
    simp only [contactUpdateFieldOutcomes, List.map_cons, List.map_nil, List.flatten_cons,
      List.flatten_nil, List.append_nil] at hv
    rw [lookupKey_append_right _ _ _ (fun kv hkv => by
        rw [parsePartialField_keys _ "firstName" raw
          (fun o' => parseNameField_keys "firstName" "Le prénom doit contenir au moins 2 caractères" o')
          kv hkv]
        decide),
      lookupKey_append_right _ _ _ (fun kv hkv => by
        rw [parsePartialField_keys _ "lastName" raw
          (fun o' => parseNameField_keys "lastName" "Le nom doit contenir au moins 2 caractères" o')
          kv hkv]
        decide)] at hv
    by_cases hhk : hasKey "email" raw = true
    · have h3' : (parseEmailField raw).1 = [] := by
        unfold parsePartialField at h3
        rwa [if_pos hhk] at h3
      obtain ⟨s3, hs3⟩ := parseEmailField_success raw h3'
      have hC : (parsePartialField parseEmailField "email" raw).2
          = [("email", JVal.str (jsTrim (jsToLower s3)))] := by
        unfold parsePartialField
        rw [if_pos hhk, hs3]
      rw [hC, List.singleton_append, lookupKey_cons_self] at hv
      injection hv with hv
      exact ⟨jsTrim (jsToLower s3), hv.symm, emailNormalized_trim_lower s3⟩
    · have hC : (parsePartialField parseEmailField "email" raw).2 = [] := by
        unfold parsePartialField
        rw [if_neg hhk]
      rw [hC, List.nil_append] at hv
      rw [lookupKey_append_right _ _ _ (fun kv hkv => by
          rw [parsePartialField_keys _ "phone" raw
            (fun o' => parseOptionalTextField_keys "phone" o') kv hkv]
          decide),
        lookupKey_append_right _ _ _ (fun kv hkv => by
          rw [parsePartialField_keys _ "company" raw
            (fun o' => parseOptionalTextField_keys "company" o') kv hkv]
          decide)] at hv
      rw [lookupKey_eq_none_of_keys _ _ (fun kv hkv => by
          rw [parsePartialField_keys _ "notes" raw
            (fun o' => parseOptionalTextField_keys "notes" o') kv hkv]
          decide)] at hv
      cases hv
  · exact absurd h (by simp)

/-- The contact-table update keeps every stored email normalized provided the
incoming email (if any) is normalized. -/
theorem dbUpdateContact_normalized (now : Int) (id : Int) (u : UpdateContactDTO) (s : Store)
    (hs : ∀ c ∈ s.contacts, emailNormalized c.email)
    (hu : ∀ e, u.email = some e → emailNormalized e) :
    ∀ res s', dbUpdateContact now id u s = .ok (res, s') →
      ∀ c ∈ s'.contacts, emailNormalized c.email := by
  intro res s' hdb c hc
  unfold dbUpdateContact at hdb
  by_cases hex : s.contacts.any (fun c0 => c0.id == id) = true
  · rw [if_pos hex] at hdb
    dsimp only at hdb
    by_cases hcol : (match u.email with
        | some e => s.contacts.any (fun c0 => !(c0.id == id) && c0.email == e)
        | none => false) = true
    · rw [if_pos hcol] at hdb
      cases hdb
    · rw [if_neg hcol] at hdb
      injection hdb with hdb
      have hst : s' =
          { s with contacts :=
              s.contacts.map (fun c0 =>
                if c0.id == id then applyContactUpdate u now c0 else c0) } :=
        (congrArg Prod.snd hdb).symm
      rw [hst] at hc
      obtain ⟨c0, hc0, hceq⟩ := List.mem_map.mp hc
      by_cases hcid : (c0.id == id) = true
      · rw [if_pos hcid] at hceq
        subst hceq
        show emailNormalized (u.email.getD c0.email)
        cases hue : u.email with
        | none => simpa [hue] using hs c0 hc0
        | some e => simpa [hue] using hu e hue
      · rw [if_neg hcid] at hceq
        subst hceq
        exact hs c0 hc0
  · rw [if_neg hex] at hdb
    injection hdb with hdb
    have hst : s' = s := (congrArg Prod.snd hdb).symm
    rw [hst] at hc
    exact hs c hc

/-- Claim C9: assuming every stored contact email is normalized (lower-cased
and trimmed), both POST /api/v1/contact and PUT /api/v1/contact/:id preserve
this invariant — the create and update schemas apply `toLowerCase` and `trim`
before the service writes, and the service stores the validated value
verbatim. -/
theorem contact_emails_stay_normalized (env : String) (now : Int) (ts : String) (s : Store)
    (hs : ∀ c ∈ s.contacts, emailNormalized c.email) :
    (∀ raw, ∀ c ∈ (postContact env now ts raw s).2.contacts, emailNormalized c.email) ∧
    (∀ idStr raw, ∀ c ∈ (putContact env now ts idStr raw s).2.contacts,
        emailNormalized c.email) := by
  constructor
  · intro raw c hc
    unfold postContact at hc
    rcases hp : parseContactCreate raw with out | iss | err
    · rw [show validate parseContactCreate raw = .next out by simp [validate, hp]] at hc
      dsimp only at hc
      unfold dbInsertContact at hc
      by_cases hdup : s.contacts.any
          (fun c0 => c0.email == (asCreateContactDTO out).email) = true
      · rw [if_pos hdup] at hc
        dsimp only at hc
        exact hs c hc
      · rw [if_neg hdup] at hc
        dsimp only at hc
        rw [List.mem_append] at hc
        rcases hc with hc | hc
        · exact hs c hc
        · have hceq : c = ⟨nextId (s.contacts.map (fun c0 => c0.id)),
              (asCreateContactDTO out).firstName, (asCreateContactDTO out).lastName,
              (asCreateContactDTO out).email, (asCreateContactDTO out).phone,
              (asCreateContactDTO out).company, (asCreateContactDTO out).notes,
              now, now⟩ := by simpa using hc
          subst hceq
          show emailNormalized (asCreateContactDTO out).email
          obtain ⟨e, he, hne⟩ := parseContactCreate_email raw out hp
          show emailNormalized (asString (lookupKey "email" out))
          rw [he]
          exact hne
    · rw [show validate parseContactCreate raw = .respond ⟨400, validationErrorBody iss⟩
          by simp [validate, hp]] at hc
      dsimp only at hc
      exact hs c hc
    · rw [show validate parseContactCreate raw = .nextError err by simp [validate, hp]] at hc
      dsimp only at hc
      exact hs c hc
  · intro idStr raw c hc
    unfold putContact at hc
    rcases hpid : parseIdParam idStr with pid | iss | err
    case zodError =>
      rw [show validate parseIdParam idStr = .respond ⟨400, validationErrorBody iss⟩
          by simp [validate, hpid]] at hc
      dsimp only at hc
      exact hs c hc
    case thrown =>
      rw [show validate parseIdParam idStr = .nextError err by simp [validate, hpid]] at hc
      dsimp only at hc
      exact hs c hc
    case ok =>
      rw [show validate parseIdParam idStr = .next pid by simp [validate, hpid]] at hc
      dsimp only at hc
      rcases hp : parseContactUpdate raw with out | iss | err
      case zodError =>
        rw [show validate parseContactUpdate raw = .respond ⟨400, validationErrorBody iss⟩
            by simp [validate, hp]] at hc
        dsimp only at hc
        exact hs c hc
      case thrown =>
        rw [show validate parseContactUpdate raw = .nextError err by simp [validate, hp]] at hc
        dsimp only at hc
        exact hs c hc
      case ok =>
        rw [show validate parseContactUpdate raw = .next out by simp [validate, hp]] at hc
        dsimp only at hc
        have hu : ∀ e, (asUpdateContactDTO out).email = some e → emailNormalized e := by
          intro e hue
          have hlk : lookupKey "email" out = some (JVal.str e) := by
            revert hue
            show asStrPresent (lookupKey "email" out) = some e → _
            cases hv : lookupKey "email" out with
            | none => intro hue; cases hue
            | some v =>
              cases v <;> intro hue <;> (cases hue <;> rfl)
          obtain ⟨e', he', hne'⟩ := parseContactUpdate_email raw out hp _ hlk
          injection he' with he'
          rw [he']
          exact hne'
        rcases hdb : dbUpdateContact now pid (asUpdateContactDTO out) s with e | ⟨res, s'⟩
        · rw [hdb] at hc
          rcases e with _ | _
          · dsimp only at hc
            exact hs c hc
          · dsimp only at hc
            exact hs c hc
        · rw [hdb] at hc
          rcases res with _ | updated
          · dsimp only at hc
            exact dbUpdateContact_normalized now pid (asUpdateContactDTO out) s hs hu
              Option.none s' hdb c hc
          · dsimp only at hc
            exact dbUpdateContact_normalized now pid (asUpdateContactDTO out) s hs hu
              (some updated) s' hdb c hc

/-- Witness for C9: the fixture store is normalized, and stays normalized
after creating a contact from a mixed-case email body and after updating
contact 1's email from a mixed-case body. -/
theorem contact_emails_stay_normalized_witness :
    (∀ c ∈ (postContact "development" 5 "T" fxExtraBody fxContactStore).2.contacts,
        emailNormalized c.email) ∧
    (∀ c ∈ (putContact "development" 5 "T" "1"
          [("email", JVal.str "Ada@NEW.org")] fxContactStore).2.contacts,
        emailNormalized c.email) := by
  have h := contact_emails_stay_normalized "development" 5 "T" fxContactStore (by decide)
  exact ⟨h.1 fxExtraBody, h.2 "1" [("email", JVal.str "Ada@NEW.org")]⟩

end FullstackDemo
